import Mathlib

/-!
Verification of the Brayns repository against its natural-language
specification.

The development shallow-embeds the relevant C++/ISPC functions:

* `KeyboardHandler.cpp` — the shortcut registration map;
* `MorphologyLoader.cpp` — circuit/morphology import control flow, the
  simulation-cache writer, the per-section geometry generation, and the
  skipped-cells computation;
* the `AdvancedSimulationRenderer` ISPC kernel — the ray-bouncing loop,
  the refraction/reflection switch, volumetric ray marching and shadow
  accumulation.

`float` values are modelled as rationals (`ℚ`); the claims under study are
control-flow and structural properties that do not depend on rounding.
Machine integers are `Nat`/`Int` with C truncated remainder (`Int.tmod`)
where the sign behaviour matters.  Calls into the host rendering engine
(`traceRay`, `postIntersect`, light sampling, transfer-function lookups)
are modelled as oracle inputs: per-iteration records or function
parameters universally quantified in the theorems.  C++ code that can
throw is modelled in `Except String`; undefined behaviour (integer
division by zero) is modelled as `Option.none`.
-/

namespace Brayns

/-! ## KeyboardHandler (src/brayns/common/input/KeyboardHandler.cpp)

`std::map<unsigned char, ShortcutInformation>` is modelled as an
association list keyed by `Nat`; the `std::function` functor is an
abstract type parameter. -/

/-- The `ShortcutInformation` struct from KeyboardHandler.h: a description and a
functor (the functor type is abstract). -/
structure ShortcutInformation (F : Type) where
  description : String
  functor : F
deriving DecidableEq

/-- Model of `KeyboardHandler::registerKeyboardShortcut` (KeyboardHandler.cpp,
lines 42-58): if the key is already present only an error is logged and
the map is left unchanged; otherwise the new binding is inserted. -/
def registerKeyboardShortcut {F : Type} (m : List (Nat × ShortcutInformation F))
    (key : Nat) (description : String) (functor : F) :
    List (Nat × ShortcutInformation F) :=
  if (m.lookup key).isSome then
    -- BRAYNS_ERROR << key << " is already registered"
    m
  else
    m ++ [(key, ⟨description, functor⟩)]

/-- Model of `KeyboardHandler::unregisterKeyboardShortcut` (KeyboardHandler.cpp,
lines 60-65). -/
def unregisterKeyboardShortcut {F : Type} (m : List (Nat × ShortcutInformation F))
    (key : Nat) : List (Nat × ShortcutInformation F) :=
  m.filter (fun p => p.1 ≠ key)

/-! ## Skipped-cells computation (MorphologyLoader.cpp, lines 497-499 and
671-673)

`uris.size() / (uris.size() * circuitDensity / 100)` in `size_t`
arithmetic.  `GeometryParameters::getCircuitDensity` is declared outside
the sources at hand; it is used here as an unsigned integer percentage,
which is the only reading under which the expression is pure integer
arithmetic.  Division by zero is C++ undefined behaviour and is modelled
as `none`. -/

/-- The `nbSkippedCells` expression of both `importCircuit` overloads:
`uris.size() / (uris.size() * circuitDensity / 100)`, with `none` when
the divisor is zero (undefined behaviour in the source). -/
def nbSkippedCellsExpr (nbUris circuitDensity : Nat) : Option Nat :=
  let d := nbUris * circuitDensity / 100
  if d = 0 then none else some (nbUris / d)

/-! ## The refraction/reflection switch
(part_002, `AdvancedSimulationRenderer_shadeRay`, lines 896-929) -/

/-- Which rebound the bottom of the `shadeRay` loop performs. -/
inductive ReboundAction where
  | refractA : ReboundAction
  | reflectA : ReboundAction
  | stopA : ReboundAction
deriving DecidableEq

/-- The rebound decision at the bottom of the `shadeRay` loop
(part_002, lines 896-929): `doRefraction = opacity < 1`,
`doReflection = reflection > 0`; when both hold the choice falls on
`sample.sampleID.z % 4 == 1` (C truncated remainder); refraction is
tried first, then reflection, otherwise `moreRebounds` becomes false. -/
def nextRebound (opacity reflection : ℚ) (sampleIDz : Int) : ReboundAction :=
  let doRefraction : Bool := decide (opacity < 1)
  let doReflection : Bool := decide (reflection > 0)
  let both := doRefraction && doReflection
  let reflectChoice : Bool := decide (sampleIDz.tmod 4 = 1)
  let doRefraction2 : Bool := if both then !reflectChoice else doRefraction
  let doReflection2 : Bool := if both then reflectChoice else doReflection
  if doRefraction2 then ReboundAction.refractA
  else if doReflection2 then ReboundAction.reflectA
  else ReboundAction.stopA

/-! ## The ray-bouncing loop of `AdvancedSimulationRenderer_shadeRay`
(part_002, lines 794-936)

The loop-control state is `(depth, pathOpacity, moreRebounds)`.  The
results of `traceRay`, the material lookup and the volume marching of
each bounce are oracle inputs (`BounceInput`), indexed by the bounce
depth.  `NB_MAX_REBOUNDS` comes from the engine's `Consts.ih`, which is
not among the sources; the development is parametric in it. -/

/-- Oracle for one bounce: whether `traceRay` hit geometry
(`ray.geomID >= 0`), the surface opacity and reflection the material
produces, and the volume intensity accumulated by
`processVolumeContribution`. -/
structure BounceInput where
  hitGeometry : Bool
  geomOpacity : ℚ
  reflection : ℚ
  volumeIntensity : ℚ

/-- The loop-control variables of `AdvancedSimulationRenderer_shadeRay`. -/
structure ShadeRayState where
  depth : Nat
  pathOpacity : ℚ
  moreRebounds : Bool

/-- The tail of the `shadeRay` loop body: perform the chosen rebound
(part_002, lines 913-931).  Refraction multiplies `pathOpacity` by
`1 - opacity`, reflection by `reflection`, otherwise `moreRebounds`
becomes false; `depth` is incremented in every case. -/
def applyRebound (a : ReboundAction) (opacity reflection : ℚ)
    (moreRebounds1 : Bool) (s : ShadeRayState) : ShadeRayState :=
  match a with
  | ReboundAction.refractA =>
      ⟨s.depth + 1, s.pathOpacity * (1 - opacity), moreRebounds1⟩
  | ReboundAction.reflectA =>
      ⟨s.depth + 1, s.pathOpacity * reflection, moreRebounds1⟩
  | ReboundAction.stopA => ⟨s.depth + 1, s.pathOpacity, false⟩

/-- One iteration of the `shadeRay` loop body (part_002, lines 810-931),
restricted to the loop-control variables.  On a miss the attributes keep
their initialisation (`opacity = 0`, `reflection = 0`) and
`moreRebounds` becomes false; on a hit the volume contribution is only
computed when the opacity exceeds the sampling threshold;
`processFinalContribution` adds a positive volume intensity to the
opacity before the rebound decision. -/
def shadeRayBounce (samplingThreshold : ℚ) (sampleIDz : Int)
    (inp : BounceInput) (s : ShadeRayState) : ShadeRayState :=
  let opacity0 : ℚ := if inp.hitGeometry then inp.geomOpacity else 0
  let reflection : ℚ := if inp.hitGeometry then inp.reflection else 0
  let moreRebounds1 : Bool := inp.hitGeometry && s.moreRebounds
  let volumeIntensity : ℚ :=
    if inp.hitGeometry && !(decide (samplingThreshold < opacity0)) then 0
    else inp.volumeIntensity
  let opacity : ℚ :=
    if 0 < volumeIntensity then opacity0 + volumeIntensity else opacity0
  applyRebound (nextRebound opacity reflection sampleIDz) opacity reflection
    moreRebounds1 s

/-- The guard of the `shadeRay` loop (part_002, line 810):
`moreRebounds && depth < NB_MAX_REBOUNDS && pathOpacity > 0.f`. -/
def shadeRayLoopCond (nbMaxRebounds : Nat) (s : ShadeRayState) : Bool :=
  s.moreRebounds && decide (s.depth < nbMaxRebounds) &&
    decide (0 < s.pathOpacity)

/-- The `shadeRay` loop, fuelled.  Any fuel at least
`nbMaxRebounds - depth` computes the loop's fixed point, as proved
below. -/
def shadeRayLoop (nbMaxRebounds : Nat) (samplingThreshold : ℚ)
    (sampleIDz : Int) (inputs : Nat → BounceInput) :
    Nat → ShadeRayState → ShadeRayState
  | 0, s => s
  | fuel+1, s =>
    if shadeRayLoopCond nbMaxRebounds s then
      shadeRayLoop nbMaxRebounds samplingThreshold sampleIDz inputs fuel
        (shadeRayBounce samplingThreshold sampleIDz (inputs s.depth) s)
    else s

/-- The number of iterations the `shadeRay` loop executes. -/
def shadeRayIterations (nbMaxRebounds : Nat) (samplingThreshold : ℚ)
    (sampleIDz : Int) (inputs : Nat → BounceInput) :
    Nat → ShadeRayState → Nat
  | 0, _ => 0
  | fuel+1, s =>
    if shadeRayLoopCond nbMaxRebounds s then
      shadeRayIterations nbMaxRebounds samplingThreshold sampleIDz inputs fuel
        (shadeRayBounce samplingThreshold sampleIDz (inputs s.depth) s) + 1
    else 0

/-- The initial state of the loop (part_002, lines 802-805):
`depth = 0`, `pathOpacity = 1`, `moreRebounds = true`. -/
def shadeRayInit : ShadeRayState := ⟨0, 1, true⟩

/-! ## Shadow accumulation (part_002)

`shadedLightIntensity` (lines 390-475): a geometry shadow `while` loop,
then a loop over the model's volumes, then a clamp of
`shadowIntensity * shadows` to `[0, 1]`.
`getVolumeShadowContributions` (lines 214-262): a per-light loop with
early exit once the running intensity reaches 1.  Ray traces and
transfer-function lookups are oracle inputs. -/

/-- The OSPRay `clamp(a, lower, upper)` function. -/
def clampQ (v lo hi : ℚ) : ℚ := max lo (min v hi)

/-- Oracle for one pass of the geometry shadow `while` loop: whether the
shadow ray hit anything, and the opacity the shadowing material
contributes. -/
structure ShadowHit where
  hit : Bool
  opacity : ℚ

/-- The geometry shadow loop of `shadedLightIntensity` (part_002, lines
416-458): `while (shadowIntensity < 1)` trace; a miss breaks, a hit adds
the shadowing geometry's opacity and marches on.  The source loop has no
intrinsic bound, so it is fuelled. -/
def geometryShadowLoop (hits : Nat → ShadowHit) :
    Nat → Nat → ℚ → ℚ
  | 0, _, shadowIntensity => shadowIntensity
  | fuel+1, k, shadowIntensity =>
    if shadowIntensity < 1 then
      if (hits k).hit then
        geometryShadowLoop hits fuel (k+1) (shadowIntensity + (hits k).opacity)
      else shadowIntensity
    else shadowIntensity

/-- The volume shadow loop of `shadedLightIntensity` (part_002, lines
464-473): for each volume while `shadowIntensity < 1`, add
`getVolumeShadowContribution * shadows`.  `volumeContrib i` is the
oracle for volume `i`'s ray-marched contribution. -/
def volumesShadowLoop (volumeContrib : Nat → ℚ) (shadows : ℚ) :
    Nat → Nat → ℚ → ℚ
  | 0, _, shadowIntensity => shadowIntensity
  | rem+1, i, shadowIntensity =>
    if shadowIntensity < 1 then
      volumesShadowLoop volumeContrib shadows rem (i+1)
        (shadowIntensity + volumeContrib i * shadows)
    else shadowIntensity

/-- Model of `shadedLightIntensity` (part_002, lines 390-475), reduced to its
shadow-intensity computation: geometry loop, volume loop, then
`clamp(shadowIntensity * shadows, 0.f, 1.f)`. -/
def shadedLightIntensity (hits : Nat → ShadowHit) (fuel : Nat)
    (volumeContrib : Nat → ℚ) (volumeCount : Nat) (shadows : ℚ) : ℚ :=
  let sI := geometryShadowLoop hits fuel 0 0
  let sI2 := volumesShadowLoop volumeContrib shadows volumeCount 0 sI
  clampQ (sI2 * shadows) 0 1

/-- Oracle for one light of `getVolumeShadowContributions`: whether the
light ray hits geometry, and otherwise the volume's ray-marched
contribution. -/
structure LightShadowInput where
  geomHit : Bool
  volumeContribution : ℚ

/-- The per-light loop of `getVolumeShadowContributions` (part_002,
lines 222-260): runs while `shadowIntensity < 1 && lights && i <
numLights`; a geometry hit adds 1 and breaks, otherwise the volume
contribution is added. -/
def lightShadowLoop (lights : Nat → LightShadowInput) (hasLights : Bool) :
    Nat → Nat → ℚ → ℚ
  | 0, _, shadowIntensity => shadowIntensity
  | rem+1, i, shadowIntensity =>
    if shadowIntensity < 1 ∧ hasLights then
      if (lights i).geomHit then shadowIntensity + 1
      else
        lightShadowLoop lights hasLights rem (i+1)
          (shadowIntensity + (lights i).volumeContribution)
    else shadowIntensity

/-- Model of `getVolumeShadowContributions` (part_002, lines 214-262): the
per-light loop's result scaled by `self->shadows`. -/
def getVolumeShadowContributions (lights : Nat → LightShadowInput)
    (hasLights : Bool) (numLights : Nat) (shadows : ℚ) : ℚ :=
  lightShadowLoop lights hasLights numLights 0 0 * shadows

/-! ## Volumetric ray marching: `getVolumeContribution`
(part_002, lines 264-388)

The march state carries `(t, epsilon, pathColor, shadingOccurence,
shadowIntensity)`.  The volume sampler, the transfer-function lookups,
the light/ambient-occlusion shading of a voxel and the shadow
contribution are oracle inputs per iteration; the engine's `composite`
(from an engine header outside the sources) is an abstract function
parameter. -/

/-- A rational 3-vector. -/
structure Vec3q where
  x : ℚ
  y : ℚ
  z : ℚ
deriving DecidableEq

/-- A rational 4-vector (`vec4f`); `w` is the alpha channel. -/
structure Vec4q where
  x : ℚ
  y : ℚ
  z : ℚ
  w : ℚ
deriving DecidableEq

/-- The fields of `Volume` used by `getVolumeContribution`. -/
structure VolumeParams where
  samplingStep : ℚ
  samplingRate : ℚ

/-- The fields of `AdvancedSimulationRenderer` used by
`getVolumeContribution`. -/
structure VolRendererParams where
  samplingThreshold : ℚ
  volumeAlphaCorrection : ℚ
  shadows : ℚ

/-- Oracle for one marching iteration: the transfer-function opacity of
the volume sample, the voxel colour after the optional light / ambient
occlusion shading, and the result of `getVolumeShadowContributions`. -/
structure VolSampleInput where
  sampleOpacity : ℚ
  shadedColor : Vec3q
  shadowContribution : ℚ

/-- The state of the ray-marching loop of `getVolumeContribution`. -/
structure VolMarchState where
  t : ℚ
  epsilon : ℚ
  pathColor : Vec4q
  shadingOccurence : Nat
  shadowIntensity : ℚ

/-- The marching upper bound (part_002, lines 270-272):
`t1 = min(ray.t, t1)` where the second `t1` is the volume box exit
distance. -/
def volT1 (rayT boxT1 : ℚ) : ℚ := min rayT boxT1

/-- One iteration of the marching loop body (part_002, lines 283-384).
A sample whose opacity is at most the sampling threshold is skipped
(`continue`): only `t` advances, by the unchanged `epsilon`.  Otherwise
the step becomes `(samplingStep + shadingOccurence) / samplingRate`, the
shaded colour is composited into the path colour with alpha correction
`volumeAlphaCorrection * epsilon`, the shadow contribution is taken on
the first shading occurrence when shadows are enabled, and
`shadingOccurence` is incremented. -/
def volumeMarchStep (vol : VolumeParams) (rend : VolRendererParams)
    (compositeFn : Vec4q → Vec4q → ℚ → Vec4q) (inp : VolSampleInput)
    (s : VolMarchState) : VolMarchState :=
  if inp.sampleOpacity ≤ rend.samplingThreshold then
    { s with t := s.t + s.epsilon }
  else
    let epsilon :=
      (vol.samplingStep + (s.shadingOccurence : ℚ)) / vol.samplingRate
    let firstShadingOccurence := s.shadingOccurence = 0
    let shadowsEnabled := firstShadingOccurence ∧ 0 < rend.shadows
    let shadowIntensity :=
      if shadowsEnabled then inp.shadowContribution else s.shadowIntensity
    let pathColor :=
      compositeFn ⟨inp.shadedColor.x, inp.shadedColor.y, inp.shadedColor.z,
          inp.sampleOpacity⟩
        s.pathColor (rend.volumeAlphaCorrection * epsilon)
    { t := s.t + epsilon, epsilon := epsilon, pathColor := pathColor,
      shadingOccurence := s.shadingOccurence + 1,
      shadowIntensity := shadowIntensity }

/-- The marching loop of `getVolumeContribution` (part_002, line 283):
`for (t = t0; t < t1 && pathColor.w < 1.f; t += epsilon)`, fuelled
because a non-positive `epsilon` would march forever in the source. -/
def volumeMarchLoop (vol : VolumeParams) (rend : VolRendererParams)
    (compositeFn : Vec4q → Vec4q → ℚ → Vec4q)
    (inputs : Nat → VolSampleInput) (t1 : ℚ) :
    Nat → Nat → VolMarchState → VolMarchState
  | 0, _, s => s
  | fuel+1, k, s =>
    if s.t < t1 ∧ s.pathColor.w < 1 then
      volumeMarchLoop vol rend compositeFn inputs t1 fuel (k+1)
        (volumeMarchStep vol rend compositeFn (inputs k) s)
    else s

/-! ## The section loop of `MorphologyLoader::_importMorphology`
(MorphologyLoader.cpp, lines 320-415)

Only the branch with `simulationInformation` present matters for C9.
`brain::neuron::Section::getSamples` and the per-sample distances to the
soma are oracle inputs; material and colour bookkeeping is
claim-irrelevant and omitted. -/

/-- A parametric primitive pushed by the section loop of
`_importMorphology`, with its simulation offset. -/
inductive MorphPrim where
  | sphere : Vec3q → ℚ → ℚ → ℚ → MorphPrim
  | cylinder : Vec3q → Vec3q → ℚ → ℚ → ℚ → MorphPrim
  | cone : Vec3q → Vec3q → ℚ → ℚ → ℚ → ℚ → MorphPrim
deriving DecidableEq

/-- The simulation offset stored in a generated primitive (the last
constructor argument). -/
def MorphPrim.simulationOffset : MorphPrim → ℚ
  | MorphPrim.sphere _ _ _ o => o
  | MorphPrim.cylinder _ _ _ _ o => o
  | MorphPrim.cone _ _ _ _ _ o => o

/-- The geometry parameters used by the section loop. -/
structure MorphGeomParams where
  radiusCorrection : ℚ
  radiusMultiplier : ℚ

/-- The radius of a sample (MorphologyLoader.cpp, lines 377-392):
`radiusCorrection` when non-zero, else `w * 0.5f * radiusMultiplier`. -/
def sampleRadius (params : MorphGeomParams) (w : ℚ) : ℚ :=
  if params.radiusCorrection ≠ 0 then params.radiusCorrection
  else w * (1/2) * params.radiusMultiplier

/-- The `segmentStep` computation (MorphologyLoader.cpp, lines 347-354): in the
`simulationInformation` branch it is only assigned under the guard
`samples.empty() && counts[sectionId] > 1`. -/
def segmentStepOf (samples : List Vec4q) (count : Nat) : ℚ :=
  if samples = [] ∧ 1 < count then (count : ℚ) / (samples.length : ℚ)
  else 0

/-- The sphere push of the section loop (MorphologyLoader.cpp, lines
394-397): only when the radius is positive. -/
def spherePrims (position : Vec3q) (radius distance offset : ℚ) :
    List MorphPrim :=
  if 0 < radius then [MorphPrim.sphere position radius distance offset]
  else []

/-- The cylinder/cone push of the section loop (MorphologyLoader.cpp,
lines 400-411): only when the position differs from the target and both
radii are positive; a cylinder when the radii agree, a cone otherwise. -/
def connectorPrims (position target : Vec3q)
    (radius previousRadius distance offset : ℚ) : List MorphPrim :=
  if position ≠ target ∧ 0 < radius ∧ 0 < previousRadius then
    [if radius = previousRadius then
      MorphPrim.cylinder position target radius distance offset
     else
      MorphPrim.cone position target radius previousRadius distance offset]
  else []

/-- The per-section sample loop of `_importMorphology`
(MorphologyLoader.cpp, lines 356-413), in the `simulationInformation`
branch: `for (i = step; !done && i < samples.size() + step; i += step)`,
clamping `i` to the last sample and setting `done`.  The offset of every
primitive is `sectionOffset + float(i) * segmentStep`.  Out-of-range
sample reads (a `size_t` underflow in `samples[i - step]`) are clamped
to index 0; the loop is fuelled because `step == 0` (a one-sample
section at low quality) never advances in the source. -/
def sectionPrims (params : MorphGeomParams) (samples : List Vec4q)
    (translation : Vec3q) (distanceToSoma : ℚ) (distances : Nat → ℚ)
    (sectionOffset segmentStep : ℚ) (stp : Nat) :
    Nat → Nat → Bool → Vec4q → List MorphPrim
  | 0, _, _, _ => []
  | fuel+1, i, done, previousSample =>
    if ¬ done ∧ i < samples.length + stp then
      let i2 := if samples.length ≤ i then samples.length - 1 else i
      let done2 := decide (samples.length ≤ i)
      let distance := distanceToSoma + distances i2
      let offset := sectionOffset + (i2 : ℚ) * segmentStep
      let sample := samples.getD i2 ⟨0, 0, 0, 0⟩
      let previousRadius :=
        sampleRadius params (samples.getD (i2 - stp) ⟨0, 0, 0, 0⟩).w
      let position : Vec3q := ⟨sample.x + translation.x,
        sample.y + translation.y, sample.z + translation.z⟩
      let target : Vec3q := ⟨previousSample.x + translation.x,
        previousSample.y + translation.y, previousSample.z + translation.z⟩
      let radius := sampleRadius params sample.w
      spherePrims position radius distance offset ++
        connectorPrims position target radius previousRadius distance
          offset ++
        sectionPrims params samples translation distanceToSoma distances
          sectionOffset segmentStep stp fuel (i2 + stp) done2 sample
    else []

/-! ## `MorphologyLoader::importSimulationData`
(MorphologyLoader.cpp, lines 898-976) and the loader entry points -/

/-- The fields of `brion::CompartmentReport` that
`importSimulationData` reads; `loadFrame` is the per-timestamp value
array. -/
structure CompartmentReport where
  startTime : ℚ
  endTime : ℚ
  timestep : ℚ
  frameSize : Nat
  loadFrame : ℚ → List ℚ

/-- The simulation-time window of `GeometryParameters`. -/
structure SimParams where
  startSimulationTime : ℚ
  endSimulationTime : ℚ

/-- The simulation cache file: the header written by
`writeHeader` (the frame count and frame size set on the handler),
followed by the per-frame float arrays. -/
structure SimCacheFile where
  headerNbFrames : Nat
  headerFrameSize : Nat
  frames : List (List ℚ)

/-- The `firstFrame` computation (MorphologyLoader.cpp, lines 941-942). -/
def simFirstFrame (report : CompartmentReport) (params : SimParams) : ℚ :=
  max report.startTime params.startSimulationTime

/-- The `lastFrame` computation (MorphologyLoader.cpp, lines 943-944). -/
def simLastFrame (report : CompartmentReport) (params : SimParams) : ℚ :=
  min report.endTime params.endSimulationTime

/-- The `nbFrames` computation (MorphologyLoader.cpp, line 947): the float quotient
`(lastFrame - firstFrame) / step` converted to `uint64_t` (truncation;
`Int.toNat` of the floor agrees with the C conversion on the defined
non-negative range). -/
def simNbFrames (report : CompartmentReport) (params : SimParams) : Nat :=
  (((simLastFrame report params - simFirstFrame report params) /
      report.timestep).floor).toNat

/-- The frame-writing loop (MorphologyLoader.cpp, lines 959-967): for
`frame` from the given index, `rem` more frames, each loaded at
`firstFrame + step * frame` and appended in order. -/
def writeFrames (report : CompartmentReport) (firstFrame : ℚ) :
    Nat → Nat → List (List ℚ)
  | 0, _ => []
  | rem+1, frame =>
    report.loadFrame (firstFrame + report.timestep * (frame : ℚ)) ::
      writeFrames report firstFrame (rem) (frame + 1)

/-- The environment of `importSimulationData`: whether the circuit's
GID set is empty, the compartment report, the configured time window,
whether `attachSimulationToCacheFile` succeeded (the cache already
exists) and whether the output file opened. -/
structure SimDataEnv where
  gidsEmpty : Bool
  report : CompartmentReport
  params : SimParams
  cacheAttached : Bool
  fileOpens : Bool

/-- Model of `MorphologyLoader::importSimulationData` (MorphologyLoader.cpp,
lines 898-976): the returned success flag and the cache file written (if
any).  Empty GID set → `(false, none)`; existing cache → `(true,
none)`; unopenable file → `(false, none)`; otherwise the header and the
`nbFrames` frames are written in increasing frame order. -/
def importSimulationData (env : SimDataEnv) : Bool × Option SimCacheFile :=
  if env.gidsEmpty then (false, none)
  else if env.cacheAttached then (true, none)
  else if ¬ env.fileOpens then (false, none)
  else
    let firstFrame := simFirstFrame env.report env.params
    let nbFrames := simNbFrames env.report env.params
    (true, some ⟨nbFrames, env.report.frameSize,
      writeFrames env.report firstFrame nbFrames 0⟩)

/-- The try/catch wrapper of `MorphologyLoader::_importMorphology` and
`_importMorphologyAsMesh` (MorphologyLoader.cpp, lines 234-423 and
110-203): a caught `std::runtime_error` is logged and turned into a
false return, otherwise the body completes and true is returned. -/
def catchRuntimeError (body : Except String Unit) : Bool :=
  match body with
  | Except.ok _ => true
  | Except.error _ => false

/-- The non-Brion stub of `importMorphology` (MorphologyLoader.cpp,
lines 980-984): logs and returns false. -/
def importMorphologyNoBrion : Bool := false

/-- The non-Brion stub of `importCircuit` (lines 986-991). -/
def importCircuitNoBrion : Bool := false

/-- The non-Brion stub of the report overload of `importCircuit`
(lines 993-998). -/
def importCircuitReportNoBrion : Bool := false

/-- The non-Brion stub of `importSimulationData` (lines 1000-1006). -/
def importSimulationDataNoBrion : Bool := false

/-- Model of `MorphologyLoader::importMorphology` (Brion build, lines 205-223):
the metaballs mesh import (when enabled) and the parametric import, both
of which catch their own runtime errors, combined with `&&`.  No
exception escapes. -/
def importMorphologyEntry (useMetaballs : Bool)
    (meshImport morphImport : Except String Unit) : Except String Bool :=
  let returnValue := if useMetaballs then catchRuntimeError meshImport
    else true
  Except.ok (returnValue && catchRuntimeError morphImport)

/-- The environment of `MorphologyLoader::importCircuit` (either
overload): the outcome of constructing `brion::BlueConfig` /
`brain::Circuit` from the configuration file (which may throw), and
whether the GID set is empty. -/
structure CircuitImportEnv where
  blueConfig : Except String Unit
  gidsEmpty : Bool

/-- Model of `MorphologyLoader::importCircuit` (lines 469-620 and 622-896): both
overloads construct the `BlueConfig` outside any try/catch, so a
malformed configuration file propagates as an exception; an empty GID
set returns false after logging; otherwise the geometry loops run —
inside them `_importMorphology` catches its own errors
(`catchRuntimeError`) and a failed cell only skips the simulation-offset
bookkeeping — and the function returns true unconditionally. -/
def importCircuitEntry (env : CircuitImportEnv) : Except String Bool :=
  match env.blueConfig with
  | Except.error e => Except.error e
  | Except.ok _ =>
    if env.gidsEmpty then Except.ok false
    else Except.ok true

/-! ## The parallel scatter/gather of `importCircuit`
(MorphologyLoader.cpp, lines 539-618, 713-789, 815-893)

The OpenMP `parallel` region is modelled by an arbitrary assignment of
cell indices to threads (a list of index lists).  Each thread folds its
cells into private per-material containers and a private bounding box;
the `critical` sections then append each private container, per material
key, to the shared scene containers, and merge the private bounds into
the world bounds.  Geometry containers are functions from material key
to primitive list; the primitives generated per cell and material are
the oracle `gen`. -/

/-- The skip test of the cell loops (MorphologyLoader.cpp, line 551):
`nbSkippedCells != 0 && i % nbSkippedCells != 0` makes the loop
`continue` without generating geometry. -/
def cellSkipped (nbSkippedCells i : Nat) : Bool :=
  decide (nbSkippedCells ≠ 0) && decide (i % nbSkippedCells ≠ 0)

/-- The geometry one loop iteration adds to the thread-local containers:
nothing for a skipped cell, the cell's generated primitives otherwise. -/
def processCell {P : Type} (gen : Nat → Nat → List P) (nsk i : Nat) :
    Nat → List P :=
  if cellSkipped nsk i then fun _ => [] else gen i

/-- The thread-local accumulation (`private_spheres` /
`private_cylinders` / `private_cones`) over the thread's cell indices. -/
def threadAccum {P : Type} (gen : Nat → Nat → List P) (nsk : Nat)
    (idxs : List Nat) : Nat → List P :=
  idxs.foldl
    (fun acc i => fun material => acc material ++ processCell gen nsk i material)
    (fun _ => [])

/-- One `#pragma omp critical` merge (MorphologyLoader.cpp, lines
586-614): each private per-material list is appended to the shared
scene container of the same material. -/
def mergeScene {P : Type} (scene priv : Nat → List P) : Nat → List P :=
  fun material => scene material ++ priv material

/-- The whole parallel region: every thread's private containers are
merged into the scene, serialised in some order (the quantification over
`threads` covers every assignment and merge order). -/
def parallelGather {P : Type} (gen : Nat → Nat → List P) (nsk : Nat)
    (scene0 : Nat → List P) (threads : List (List Nat)) : Nat → List P :=
  threads.foldl (fun sc th => mergeScene sc (threadAccum gen nsk th)) scene0

/-- Model of `brayns::Boxf`: either default-constructed empty, or an axis-aligned
box. -/
inductive Boxq where
  | emptyBox : Boxq
  | box : Vec3q → Vec3q → Boxq
deriving DecidableEq

/-- Componentwise minimum. -/
def vminQ (a b : Vec3q) : Vec3q := ⟨min a.x b.x, min a.y b.y, min a.z b.z⟩

/-- Componentwise maximum. -/
def vmaxQ (a b : Vec3q) : Vec3q := ⟨max a.x b.x, max a.y b.y, max a.z b.z⟩

/-- Model of `Boxf::merge`: the empty box is the identity, otherwise the
componentwise hull. -/
def Boxq.merge : Boxq → Boxq → Boxq
  | Boxq.emptyBox, b => b
  | b, Boxq.emptyBox => b
  | Boxq.box l1 h1, Boxq.box l2 h2 => Boxq.box (vminQ l1 l2) (vmaxQ h1 h2)

/-- Box containment: the first box contains the second (the empty box is
contained in everything). -/
def Boxq.subsumes : Boxq → Boxq → Bool
  | _, Boxq.emptyBox => true
  | Boxq.emptyBox, Boxq.box _ _ => false
  | Boxq.box l1 h1, Boxq.box l2 h2 =>
    decide (l1.x ≤ l2.x) && decide (l1.y ≤ l2.y) && decide (l1.z ≤ l2.z) &&
      decide (h2.x ≤ h1.x) && decide (h2.y ≤ h1.y) && decide (h2.z ≤ h1.z)

/-- The thread-private bounds (`private_bounds`): the merge of the
bounds contributions of the thread's non-skipped cells. -/
def threadBounds (cellBounds : Nat → Boxq) (nsk : Nat)
    (idxs : List Nat) : Boxq :=
  idxs.foldl
    (fun b i => if cellSkipped nsk i then b else b.merge (cellBounds i))
    Boxq.emptyBox

/-- The effect of `scene.getWorldBounds().merge(private_bounds)` over all threads. -/
def finalWorldBounds (cellBounds : Nat → Boxq) (nsk : Nat) (w0 : Boxq)
    (threads : List (List Nat)) : Boxq :=
  threads.foldl (fun w th => w.merge (threadBounds cellBounds nsk th)) w0

end Brayns

namespace Brayns

/-! ### Theorems for the shortcut map and the skipped-cells expression -/

theorem lookup_append_of_lookup_eq_none {F : Type}
    (m l : List (Nat × ShortcutInformation F)) (key : Nat)
    (h : m.lookup key = none) : (m ++ l).lookup key = l.lookup key := by
  induction m with
  | nil => simp
  | cons p m ih =>
    rcases p with ⟨k, v⟩
    by_cases hk : key = k
    · subst hk
      simp [List.lookup] at h
    · have hb : (key == k) = false := beq_eq_false_iff_ne.mpr hk
      simp only [List.cons_append, List.lookup, hb] at h ⊢
      exact ih h

theorem lookup_append_left {F : Type}
    (m l : List (Nat × ShortcutInformation F)) (key : Nat)
    (h : (l.lookup key) = none) :
    (m ++ l).lookup key = m.lookup key := by
  induction m with
  | nil =>
    simp only [List.nil_append]
    rw [h]
    rfl
  | cons p m ih =>
    rcases p with ⟨k, v⟩
    by_cases hk : key = k
    · subst hk
      simp [List.lookup]
    · have hb : (key == k) = false := beq_eq_false_iff_ne.mpr hk
      simp only [List.cons_append, List.lookup, hb]
      exact ih

/-- C8: registering a shortcut for an already-registered key leaves the
map unchanged (the old description and functor are kept, the new ones
are discarded); for a fresh key exactly that binding is added and every
other key's binding is unchanged. -/
theorem registerKeyboardShortcut_spec {F : Type}
    (m : List (Nat × ShortcutInformation F)) (key : Nat)
    (description : String) (functor : F) :
    ((m.lookup key).isSome →
      registerKeyboardShortcut m key description functor = m) ∧
    (m.lookup key = none →
      (registerKeyboardShortcut m key description functor).lookup key =
        some ⟨description, functor⟩ ∧
      ∀ k, k ≠ key →
        (registerKeyboardShortcut m key description functor).lookup k =
          m.lookup k) := by
  constructor
  · intro h
    simp [registerKeyboardShortcut, h]
  · intro h
    have hnot : ¬ (m.lookup key).isSome := by simp [h]
    constructor
    · simp only [registerKeyboardShortcut, if_neg hnot]
      rw [lookup_append_of_lookup_eq_none _ _ _ h]
      simp [List.lookup]
    · intro k hk
      simp only [registerKeyboardShortcut, if_neg hnot]
      apply lookup_append_left
      have hb : (k == key) = false := beq_eq_false_iff_ne.mpr hk
      simp [List.lookup, hb]

/-- Witness for C8 at concrete inputs: key 65 is taken, so re-registering
it keeps the old binding; key 66 is fresh, so it is added and key 65 is
untouched. -/
theorem registerKeyboardShortcut_spec_witness :
    registerKeyboardShortcut [(65, (⟨"old", 0⟩ : ShortcutInformation Nat))]
        65 "new" 1 = [(65, ⟨"old", 0⟩)] ∧
    (registerKeyboardShortcut [(65, (⟨"old", 0⟩ : ShortcutInformation Nat))]
        66 "new" 1).lookup 66 = some ⟨"new", 1⟩ ∧
    (registerKeyboardShortcut [(65, (⟨"old", 0⟩ : ShortcutInformation Nat))]
        66 "new" 1).lookup 65 = some ⟨"old", 0⟩ := by
  refine ⟨(registerKeyboardShortcut_spec _ 65 "new" 1).1 (by decide), ?_, ?_⟩
  · exact ((registerKeyboardShortcut_spec _ 66 "new" 1).2 (by decide)).1
  · have h := ((registerKeyboardShortcut_spec
      [(65, (⟨"old", 0⟩ : ShortcutInformation Nat))] 66 "new" 1).2
      (by decide)).2 65 (by decide)
    rw [h]
    decide

/-- C10: the `nbSkippedCells` expression divides by zero (undefined
behaviour, modelled as `none`) exactly when `uris.size() *
circuitDensity / 100` is zero in integer arithmetic, and is only safe —
producing the quotient — when that divisor is positive. -/
theorem nbSkippedCellsExpr_spec (nbUris circuitDensity : Nat) :
    (nbUris * circuitDensity / 100 = 0 →
      nbSkippedCellsExpr nbUris circuitDensity = none) ∧
    (0 < nbUris * circuitDensity / 100 →
      nbSkippedCellsExpr nbUris circuitDensity =
        some (nbUris / (nbUris * circuitDensity / 100))) := by
  constructor
  · intro h
    simp [nbSkippedCellsExpr, h]
  · intro h
    have h0 : ¬ nbUris * circuitDensity / 100 = 0 := by omega
    simp [nbSkippedCellsExpr, h0]

/-- Witness for C10: a density of 0, and 1 cell at density 50, both make
the divisor zero (division by zero); 1000 cells at density 100 are
safe. -/
theorem nbSkippedCellsExpr_spec_witness :
    nbSkippedCellsExpr 1000 0 = none ∧
    nbSkippedCellsExpr 1 50 = none ∧
    nbSkippedCellsExpr 1000 100 = some 1 := by
  refine ⟨(nbSkippedCellsExpr_spec 1000 0).1 (by decide),
    (nbSkippedCellsExpr_spec 1 50).1 (by decide), ?_⟩
  have h := (nbSkippedCellsExpr_spec 1000 100).2 (by decide)
  rw [h]

/-! ### Theorems for the refraction/reflection switch -/

/-- C2: in every bounce, when the opacity is below 1 and the reflection
is positive, the choice between refraction and reflection falls on
`sampleID.z % 4 == 1`; when only one of the two conditions holds that
rebound is performed; when neither holds the path ends.  The
`ReboundAction` result type makes the three outcomes mutually
exclusive — exactly one is performed. -/
theorem nextRebound_cases (opacity reflection : ℚ) (z : Int) :
    (opacity < 1 → 0 < reflection →
      nextRebound opacity reflection z =
        if z.tmod 4 = 1 then ReboundAction.reflectA else ReboundAction.refractA) ∧
    (opacity < 1 → ¬ 0 < reflection →
      nextRebound opacity reflection z = ReboundAction.refractA) ∧
    (¬ opacity < 1 → 0 < reflection →
      nextRebound opacity reflection z = ReboundAction.reflectA) ∧
    (¬ opacity < 1 → ¬ 0 < reflection →
      nextRebound opacity reflection z = ReboundAction.stopA) := by
  refine ⟨fun h1 h2 => ?_, fun h1 h2 => ?_, fun h1 h2 => ?_, fun h1 h2 => ?_⟩ <;>
    by_cases h3 : z.tmod 4 = 1 <;>
    simp [nextRebound, h1, h2, h3]

/-- Witness for C2 at concrete inputs: on a half-transparent reflective
surface sample 5 reflects and sample 4 refracts; without reflection the
ray refracts; an opaque reflective surface reflects; an opaque
non-reflective surface ends the path. -/
theorem nextRebound_cases_witness :
    nextRebound (1/2) 1 5 = ReboundAction.reflectA ∧
    nextRebound (1/2) 1 4 = ReboundAction.refractA ∧
    nextRebound (1/2) 0 5 = ReboundAction.refractA ∧
    nextRebound 2 1 5 = ReboundAction.reflectA ∧
    nextRebound 2 0 5 = ReboundAction.stopA := by
  have h1 := (nextRebound_cases (1/2) 1 5).1 (by norm_num) (by norm_num)
  have h2 := (nextRebound_cases (1/2) 1 4).1 (by norm_num) (by norm_num)
  have h3 := (nextRebound_cases (1/2) 0 5).2.1 (by norm_num) (by norm_num)
  have h4 := (nextRebound_cases 2 1 5).2.2.1 (by norm_num) (by norm_num)
  have h5 := (nextRebound_cases 2 0 5).2.2.2 (by norm_num) (by norm_num)
  rw [h1, h2, h3, h4, h5]
  refine ⟨?_, rfl, rfl, rfl, rfl⟩
  norm_num [Int.tmod]

/-! ### Theorems for the `shadeRay` loop -/

theorem applyRebound_depth (a : ReboundAction) (o r : ℚ) (mb : Bool)
    (s : ShadeRayState) : (applyRebound a o r mb s).depth = s.depth + 1 := by
  cases a <;> rfl

theorem shadeRayBounce_depth (thr : ℚ) (z : Int) (inp : BounceInput)
    (s : ShadeRayState) : (shadeRayBounce thr z inp s).depth = s.depth + 1 :=
  applyRebound_depth _ _ _ _ _

theorem shadeRayLoopCond_depth_lt {N : Nat} {s : ShadeRayState}
    (h : shadeRayLoopCond N s = true) : s.depth < N := by
  simp only [shadeRayLoopCond, Bool.and_eq_true, decide_eq_true_eq] at h
  exact h.1.2

theorem shadeRayIterations_le (N : Nat) (thr : ℚ) (z : Int)
    (inputs : Nat → BounceInput) :
    ∀ fuel s, shadeRayIterations N thr z inputs fuel s ≤ N - s.depth := by
  intro fuel
  induction fuel with
  | zero => intro s; simp [shadeRayIterations]
  | succ fuel ih =>
    intro s
    by_cases h : shadeRayLoopCond N s = true
    · have hd := shadeRayLoopCond_depth_lt h
      have hb := ih (shadeRayBounce thr z (inputs s.depth) s)
      rw [shadeRayBounce_depth] at hb
      simp only [shadeRayIterations, h, if_true]
      omega
    · simp [shadeRayIterations, h]

theorem shadeRayLoop_step (N : Nat) (thr : ℚ) (z : Int)
    (inputs : Nat → BounceInput) :
    ∀ fuel s, N - s.depth ≤ fuel →
      shadeRayLoop N thr z inputs (fuel+1) s =
        shadeRayLoop N thr z inputs fuel s := by
  intro fuel
  induction fuel with
  | zero =>
    intro s h
    have hnd : ¬ s.depth < N := by omega
    simp [shadeRayLoop, shadeRayLoopCond, hnd]
  | succ fuel ih =>
    intro s h
    by_cases hc : shadeRayLoopCond N s = true
    · have hd := shadeRayLoopCond_depth_lt hc
      have h2 : N - (shadeRayBounce thr z (inputs s.depth) s).depth ≤ fuel := by
        rw [shadeRayBounce_depth]; omega
      simp only [shadeRayLoop, hc, if_true]
      exact ih _ h2
    · have hc2 : shadeRayLoopCond N s = false := by
        simpa using hc
      simp [shadeRayLoop, hc2]

theorem shadeRayLoop_stable (N : Nat) (thr : ℚ) (z : Int)
    (inputs : Nat → BounceInput) :
    ∀ fuel s, N - s.depth ≤ fuel →
      shadeRayLoop N thr z inputs fuel s =
        shadeRayLoop N thr z inputs (N - s.depth) s := by
  intro fuel
  induction fuel with
  | zero =>
    intro s h
    have h0 : N - s.depth = 0 := by omega
    rw [h0]
  | succ fuel ih =>
    intro s h
    by_cases h2 : N - s.depth ≤ fuel
    · rw [shadeRayLoop_step N thr z inputs fuel s h2]
      exact ih s h2
    · have h3 : N - s.depth = fuel + 1 := by omega
      rw [h3]

theorem shadeRayIterations_of_cond_false (N : Nat) (thr : ℚ) (z : Int)
    (inputs : Nat → BounceInput) (fuel : Nat) (s : ShadeRayState)
    (h : shadeRayLoopCond N s = false) :
    shadeRayIterations N thr z inputs fuel s = 0 := by
  cases fuel <;> simp [shadeRayIterations, h]

/-- C1: for every screen sample (every oracle input stream), the
ray-bouncing loop of `AdvancedSimulationRenderer_shadeRay` executes at
most `NB_MAX_REBOUNDS - depth` further iterations from any state (hence
at most `NB_MAX_REBOUNDS` from the initial state), performs no iteration
once the path opacity is no longer positive or no rebound applies
(`moreRebounds` false), and its fuelled fixed point is reached with fuel
`NB_MAX_REBOUNDS` — the per-sample kernel always terminates. -/
theorem shadeRay_loop_bounded (N : Nat) (thr : ℚ) (z : Int)
    (inputs : Nat → BounceInput) :
    (∀ fuel s, shadeRayIterations N thr z inputs fuel s ≤ N - s.depth) ∧
    shadeRayIterations N thr z inputs N shadeRayInit ≤ N ∧
    (∀ fuel s, ¬ 0 < s.pathOpacity →
      shadeRayIterations N thr z inputs fuel s = 0) ∧
    (∀ fuel s, s.moreRebounds = false →
      shadeRayIterations N thr z inputs fuel s = 0) ∧
    (∀ fuel, N ≤ fuel →
      shadeRayLoop N thr z inputs fuel shadeRayInit =
        shadeRayLoop N thr z inputs N shadeRayInit) := by
  refine ⟨shadeRayIterations_le N thr z inputs, ?_, ?_, ?_, ?_⟩
  · have h := shadeRayIterations_le N thr z inputs N shadeRayInit
    simpa [shadeRayInit] using h
  · intro fuel s h
    apply shadeRayIterations_of_cond_false
    simp [shadeRayLoopCond, h]
  · intro fuel s h
    apply shadeRayIterations_of_cond_false
    simp [shadeRayLoopCond, h]
  · intro fuel h
    have h1 := shadeRayLoop_stable N thr z inputs fuel shadeRayInit
      (by simp [shadeRayInit]; omega)
    have h2 := shadeRayLoop_stable N thr z inputs N shadeRayInit
      (by simp [shadeRayInit])
    rw [h1, h2]

/-- Witness for C1 at concrete inputs: two rebounds on a
half-transparent surface, zero iterations from exhausted opacity or from
`moreRebounds = false`, and fuel 5 computes the same loop result as fuel
`NB_MAX_REBOUNDS = 2`. -/
theorem shadeRay_loop_bounded_witness :
    shadeRayIterations 2 0 0 (fun _ => ⟨true, 1/2, 0, 0⟩) 2 shadeRayInit ≤ 2 ∧
    shadeRayIterations 2 0 0 (fun _ => ⟨true, 1/2, 0, 0⟩) 5 ⟨1, 0, true⟩ = 0 ∧
    shadeRayIterations 2 0 0 (fun _ => ⟨true, 1/2, 0, 0⟩) 5 ⟨1, 1, false⟩ = 0 ∧
    shadeRayLoop 2 0 0 (fun _ => ⟨true, 1/2, 0, 0⟩) 5 shadeRayInit =
      shadeRayLoop 2 0 0 (fun _ => ⟨true, 1/2, 0, 0⟩) 2 shadeRayInit := by
  have h := shadeRay_loop_bounded 2 0 0 (fun _ => ⟨true, 1/2, 0, 0⟩)
  exact ⟨h.2.1, h.2.2.1 5 ⟨1, 0, true⟩ (by norm_num),
    h.2.2.2.1 5 ⟨1, 1, false⟩ rfl, h.2.2.2.2 5 (by norm_num)⟩

/-! ### Theorems for shadow accumulation -/

theorem geometryShadowLoop_stop (hits : Nat → ShadowHit)
    (fuel k : Nat) (sI : ℚ) (h : 1 ≤ sI) :
    geometryShadowLoop hits fuel k sI = sI := by
  cases fuel <;> simp [geometryShadowLoop, not_lt.mpr h]

theorem volumesShadowLoop_stop (volumeContrib : Nat → ℚ) (shadows : ℚ)
    (rem i : Nat) (sI : ℚ) (h : 1 ≤ sI) :
    volumesShadowLoop volumeContrib shadows rem i sI = sI := by
  cases rem <;> simp [volumesShadowLoop, not_lt.mpr h]

theorem lightShadowLoop_stop (lights : Nat → LightShadowInput)
    (hasLights : Bool) (rem i : Nat) (sI : ℚ) (h : 1 ≤ sI) :
    lightShadowLoop lights hasLights rem i sI = sI := by
  cases rem <;> simp [lightShadowLoop, not_lt.mpr h]

/-- C7: multi-light shadow accumulation is bounded:
`shadedLightIntensity` always returns a value clamped to `[0, 1]`, and
the geometry shadow loop, the per-volume loop and the per-light loop of
`getVolumeShadowContributions` perform no further accumulation once the
running `shadowIntensity` has reached 1. -/
theorem shadedLightIntensity_bounds (hits : Nat → ShadowHit) (fuel : Nat)
    (volumeContrib : Nat → ℚ) (volumeCount : Nat) (shadows : ℚ)
    (lights : Nat → LightShadowInput) (hasLights : Bool) :
    (0 ≤ shadedLightIntensity hits fuel volumeContrib volumeCount shadows ∧
      shadedLightIntensity hits fuel volumeContrib volumeCount shadows ≤ 1) ∧
    (∀ f k sI, (1:ℚ) ≤ sI → geometryShadowLoop hits f k sI = sI) ∧
    (∀ f i sI, (1:ℚ) ≤ sI → volumesShadowLoop volumeContrib shadows f i sI = sI) ∧
    (∀ f i sI, (1:ℚ) ≤ sI → lightShadowLoop lights hasLights f i sI = sI) := by
  refine ⟨⟨?_, ?_⟩, geometryShadowLoop_stop hits,
    volumesShadowLoop_stop volumeContrib shadows,
    lightShadowLoop_stop lights hasLights⟩
  · exact le_max_left 0 _
  · exact max_le (by norm_num) (min_le_right _ 1)

/-- Witness for C7 at concrete inputs: a no-hit trace gives an intensity
in `[0, 1]`, and each of the three loops leaves a saturated intensity
untouched. -/
theorem shadedLightIntensity_bounds_witness :
    (0 ≤ shadedLightIntensity (fun _ => ⟨false, 0⟩) 1 (fun _ => 0) 0 1 ∧
      shadedLightIntensity (fun _ => ⟨false, 0⟩) 1 (fun _ => 0) 0 1 ≤ 1) ∧
    geometryShadowLoop (fun _ => ⟨false, 0⟩) 3 0 1 = 1 ∧
    volumesShadowLoop (fun _ => 0) 1 3 0 2 = 2 ∧
    lightShadowLoop (fun _ => ⟨false, 0⟩) true 3 0 1 = 1 := by
  have h := shadedLightIntensity_bounds (fun _ => ⟨false, 0⟩) 1 (fun _ => 0) 0 1
    (fun _ => ⟨false, 0⟩) true
  exact ⟨h.1, h.2.1 3 0 1 le_rfl, h.2.2.1 3 0 2 (by norm_num),
    h.2.2.2 3 0 1 le_rfl⟩

/-! ### Theorems for volumetric ray marching -/

/-- C3: in `getVolumeContribution`, a volume sample whose
transfer-function opacity is at most the renderer's `samplingThreshold`
is skipped — only `t` advances, and the path colour, the step and the
shading-occurrence count are untouched; after a shaded sample the
marching step becomes `(samplingStep + shadingOccurence) /
samplingRate` (with the occurrence count as it stood) and the count
increments; the marching loop performs no iteration once `t` has
reached `t1` (which is the box exit distance capped by `ray.t`) or the
accumulated alpha `pathColor.w` has reached 1. -/
theorem getVolumeContribution_marching (vol : VolumeParams)
    (rend : VolRendererParams) (compositeFn : Vec4q → Vec4q → ℚ → Vec4q)
    (inputs : Nat → VolSampleInput) (rayT boxT1 : ℚ) :
    (∀ inp s, inp.sampleOpacity ≤ rend.samplingThreshold →
      (volumeMarchStep vol rend compositeFn inp s).pathColor = s.pathColor ∧
      (volumeMarchStep vol rend compositeFn inp s).epsilon = s.epsilon ∧
      (volumeMarchStep vol rend compositeFn inp s).shadingOccurence =
        s.shadingOccurence ∧
      (volumeMarchStep vol rend compositeFn inp s).t = s.t + s.epsilon) ∧
    (∀ inp s, ¬ inp.sampleOpacity ≤ rend.samplingThreshold →
      (volumeMarchStep vol rend compositeFn inp s).epsilon =
        (vol.samplingStep + (s.shadingOccurence : ℚ)) / vol.samplingRate ∧
      (volumeMarchStep vol rend compositeFn inp s).shadingOccurence =
        s.shadingOccurence + 1 ∧
      (volumeMarchStep vol rend compositeFn inp s).t =
        s.t + (vol.samplingStep + (s.shadingOccurence : ℚ)) /
          vol.samplingRate) ∧
    (∀ fuel k s, ¬ (s.t < volT1 rayT boxT1 ∧ s.pathColor.w < 1) →
      volumeMarchLoop vol rend compositeFn inputs (volT1 rayT boxT1) fuel k
        s = s) ∧
    volT1 rayT boxT1 = min rayT boxT1 := by
  refine ⟨?_, ?_, ?_, rfl⟩
  · intro inp s h
    refine ⟨?_, ?_, ?_, ?_⟩ <;> simp [volumeMarchStep, h]
  · intro inp s h
    refine ⟨?_, ?_, ?_⟩ <;> simp [volumeMarchStep, h]
  · intro fuel k s h
    cases fuel <;> simp [volumeMarchLoop, h]

/-- Witness for C3 at concrete inputs: a sample of opacity 1/4 is
skipped under threshold 1/2 (path colour unchanged), a sample of
opacity 1 is shaded with step `(1 + 0) / 2`, and a state past `t1`
performs no marching iteration. -/
theorem getVolumeContribution_marching_witness :
    (volumeMarchStep ⟨1, 2⟩ ⟨1/2, 1, 1⟩ (fun a _ _ => a)
      ⟨1/4, ⟨0, 0, 0⟩, 0⟩ ⟨0, 1, ⟨0, 0, 0, 0⟩, 0, 0⟩).pathColor =
      ⟨0, 0, 0, 0⟩ ∧
    (volumeMarchStep ⟨1, 2⟩ ⟨1/2, 1, 1⟩ (fun a _ _ => a)
      ⟨1, ⟨0, 0, 0⟩, 0⟩ ⟨0, 1, ⟨0, 0, 0, 0⟩, 0, 0⟩).epsilon = 1/2 ∧
    volumeMarchLoop ⟨1, 2⟩ ⟨1/2, 1, 1⟩ (fun a _ _ => a)
      (fun _ => ⟨1, ⟨0, 0, 0⟩, 0⟩) (volT1 3 4) 3 0 ⟨5, 1, ⟨0, 0, 0, 0⟩, 0, 0⟩ =
      ⟨5, 1, ⟨0, 0, 0, 0⟩, 0, 0⟩ := by
  have h := getVolumeContribution_marching ⟨1, 2⟩ ⟨1/2, 1, 1⟩ (fun a _ _ => a)
    (fun _ => ⟨1, ⟨0, 0, 0⟩, 0⟩) 3 4
  refine ⟨(h.1 ⟨1/4, ⟨0, 0, 0⟩, 0⟩ ⟨0, 1, ⟨0, 0, 0, 0⟩, 0, 0⟩ (by norm_num)).1,
    ?_, ?_⟩
  · rw [(h.2.1 ⟨1, ⟨0, 0, 0⟩, 0⟩ ⟨0, 1, ⟨0, 0, 0, 0⟩, 0, 0⟩ (by norm_num)).1]
    norm_num
  · exact h.2.2.1 3 0 ⟨5, 1, ⟨0, 0, 0, 0⟩, 0, 0⟩ (by norm_num [volT1])

/-! ### Theorems for the simulation cache writer -/

theorem writeFrames_length (report : CompartmentReport) (firstFrame : ℚ) :
    ∀ rem frame, (writeFrames report firstFrame rem frame).length = rem := by
  intro rem
  induction rem with
  | zero => intro frame; rfl
  | succ rem ih => intro frame; simp [writeFrames, ih]

theorem writeFrames_get (report : CompartmentReport) (firstFrame : ℚ) :
    ∀ rem frame i, i < rem →
      (writeFrames report firstFrame rem frame).get? i =
        some (report.loadFrame
          (firstFrame + report.timestep * ((frame + i : Nat) : ℚ))) := by
  intro rem
  induction rem with
  | zero => intro frame i h; exact absurd h (Nat.not_lt_zero i)
  | succ rem ih =>
    intro frame i h
    cases i with
    | zero => simp [writeFrames]
    | succ i =>
      have hcast : (frame + 1) + i = frame + (i + 1) := by omega
      simp only [writeFrames, List.get?_cons_succ]
      rw [ih (frame + 1) i (by omega), hcast]

/-- C5: `importSimulationData` writes the cache as a header followed by
exactly `nbFrames` per-frame float arrays in increasing frame order,
where `nbFrames` is the `uint64_t` truncation of `(lastFrame -
firstFrame) / step`, `firstFrame = max(report start, configured start)`,
`lastFrame = min(report end, configured end)`, and frame `i` holds the
report's values at time `firstFrame + step * i`. -/
theorem importSimulationData_cache (env : SimDataEnv)
    (h1 : env.gidsEmpty = false) (h2 : env.cacheAttached = false)
    (h3 : env.fileOpens = true) :
    importSimulationData env = (true, some ⟨simNbFrames env.report env.params,
      env.report.frameSize,
      writeFrames env.report (simFirstFrame env.report env.params)
        (simNbFrames env.report env.params) 0⟩) ∧
    simNbFrames env.report env.params =
      (((min env.report.endTime env.params.endSimulationTime -
          max env.report.startTime env.params.startSimulationTime) /
          env.report.timestep).floor).toNat ∧
    (writeFrames env.report (simFirstFrame env.report env.params)
        (simNbFrames env.report env.params) 0).length =
      simNbFrames env.report env.params ∧
    ∀ i, i < simNbFrames env.report env.params →
      (writeFrames env.report (simFirstFrame env.report env.params)
          (simNbFrames env.report env.params) 0).get? i =
        some (env.report.loadFrame
          (simFirstFrame env.report env.params +
            env.report.timestep * (i : ℚ))) := by
  refine ⟨?_, rfl, writeFrames_length _ _ _ _, ?_⟩
  · simp [importSimulationData, h1, h2, h3]
  · intro i hi
    have h := writeFrames_get env.report (simFirstFrame env.report env.params)
      (simNbFrames env.report env.params) 0 i hi
    simpa using h

/-- Witness for C5: a report over `[0, 1]` with timestep 1/2 and a
configured window `[0, 10]` produces the success flag and the
two-frame cache file. -/
theorem importSimulationData_cache_witness :
    importSimulationData
        ⟨false, ⟨0, 1, 1/2, 1, fun t => [t]⟩, ⟨0, 10⟩, false, true⟩ =
      (true, some ⟨simNbFrames ⟨0, 1, 1/2, 1, fun t => [t]⟩ ⟨0, 10⟩, 1,
        writeFrames ⟨0, 1, 1/2, 1, fun t => [t]⟩
          (simFirstFrame ⟨0, 1, 1/2, 1, fun t => [t]⟩ ⟨0, 10⟩)
          (simNbFrames ⟨0, 1, 1/2, 1, fun t => [t]⟩ ⟨0, 10⟩) 0⟩) ∧
    (writeFrames ⟨0, 1, 1/2, 1, fun t => [t]⟩
        (simFirstFrame ⟨0, 1, 1/2, 1, fun t => [t]⟩ ⟨0, 10⟩)
        (simNbFrames ⟨0, 1, 1/2, 1, fun t => [t]⟩ ⟨0, 10⟩) 0).get? 1 =
      some [(1:ℚ)/2] := by
  have h := importSimulationData_cache
    ⟨false, ⟨0, 1, 1/2, 1, fun t => [t]⟩, ⟨0, 10⟩, false, true⟩ rfl rfl rfl
  refine ⟨h.1, ?_⟩
  have h2 := h.2.2.2 1 ?_
  · rw [h2]
    norm_num [simFirstFrame]
  · show 1 < simNbFrames ⟨0, 1, 1/2, 1, fun t => [t]⟩ ⟨0, 10⟩
    norm_num [simNbFrames, simFirstFrame, simLastFrame]
    decide

/-! ### Theorems for the section loop's simulation offsets -/

theorem mem_spherePrims_offset {position : Vec3q} {radius distance o : ℚ}
    {p : MorphPrim} (hp : p ∈ spherePrims position radius distance o) :
    p.simulationOffset = o := by
  by_cases h : 0 < radius
  · simp only [spherePrims, if_pos h, List.mem_singleton] at hp
    subst hp
    rfl
  · simp [spherePrims, h] at hp

theorem mem_connectorPrims_offset {position target : Vec3q}
    {radius previousRadius distance o : ℚ} {p : MorphPrim}
    (hp : p ∈ connectorPrims position target radius previousRadius distance o) :
    p.simulationOffset = o := by
  by_cases h : position ≠ target ∧ 0 < radius ∧ 0 < previousRadius
  · simp only [connectorPrims, if_pos h, List.mem_singleton] at hp
    subst hp
    by_cases he : radius = previousRadius <;>
      simp [he, MorphPrim.simulationOffset]
  · simp [connectorPrims, h] at hp

theorem sectionPrims_offset_of_zero_step (params : MorphGeomParams)
    (samples : List Vec4q) (translation : Vec3q) (distanceToSoma : ℚ)
    (distances : Nat → ℚ) (sectionOffset : ℚ) (stp : Nat) :
    ∀ fuel i done prev p,
      p ∈ sectionPrims params samples translation distanceToSoma distances
        sectionOffset 0 stp fuel i done prev →
      p.simulationOffset = sectionOffset := by
  intro fuel
  induction fuel with
  | zero =>
    intro i done prev p hp
    simp [sectionPrims] at hp
  | succ fuel ih =>
    intro i done prev p hp
    rw [sectionPrims] at hp
    by_cases hc : ¬ done ∧ i < samples.length + stp
    · rw [if_pos hc] at hp
      simp only [List.mem_append] at hp
      rcases hp with (hp | hp) | hp
      · rw [mem_spherePrims_offset hp]
        simp
      · rw [mem_connectorPrims_offset hp]
        simp
      · exact ih _ _ _ p hp
    · rw [if_neg hc] at hp
      simp at hp

/-- C9: in `_importMorphology` with `simulationInformation` present,
`segmentStep` stays 0 for every processed section — its guard demands
`samples.empty()` although empty-sample sections were already skipped —
so every sphere, cylinder and cone generated by the section loop carries
the same simulation offset, the section's compartment offset,
independent of the sample index. -/
theorem importMorphology_constant_offset (params : MorphGeomParams)
    (samples : List Vec4q) (translation : Vec3q) (distanceToSoma : ℚ)
    (distances : Nat → ℚ) (sectionOffset : ℚ) (count : Nat) (stp : Nat)
    (hne : samples ≠ []) :
    segmentStepOf samples count = 0 ∧
    ∀ fuel i done prev p,
      p ∈ sectionPrims params samples translation distanceToSoma distances
        sectionOffset (segmentStepOf samples count) stp fuel i done prev →
      p.simulationOffset = sectionOffset := by
  have h0 : segmentStepOf samples count = 0 := by
    simp [segmentStepOf, hne]
  refine ⟨h0, ?_⟩
  rw [h0]
  exact sectionPrims_offset_of_zero_step params samples translation
    distanceToSoma distances sectionOffset stp

/-- Witness for C9: a two-sample section with 5 compartments gets
`segmentStep = 0`, and a concrete generated sphere carries the
section's compartment offset 7. -/
theorem importMorphology_constant_offset_witness :
    segmentStepOf [⟨0, 0, 0, 1⟩, ⟨1, 0, 0, 1⟩] 5 = 0 ∧
    (MorphPrim.sphere ⟨1, 0, 0⟩ (1/2) 0 7).simulationOffset = 7 ∧
    MorphPrim.sphere ⟨1, 0, 0⟩ (1/2) 0 7 ∈
      sectionPrims ⟨0, 1⟩ [⟨0, 0, 0, 1⟩, ⟨1, 0, 0, 1⟩] ⟨0, 0, 0⟩ 0
        (fun _ => 0) 7 (segmentStepOf [⟨0, 0, 0, 1⟩, ⟨1, 0, 0, 1⟩] 5) 1 3 1
        false ⟨0, 0, 0, 1⟩ := by
  have h := importMorphology_constant_offset ⟨0, 1⟩
    [⟨0, 0, 0, 1⟩, ⟨1, 0, 0, 1⟩] ⟨0, 0, 0⟩ 0 (fun _ => 0) 7 5 1 (by simp)
  have hmem : MorphPrim.sphere ⟨1, 0, 0⟩ (1/2) 0 7 ∈
      sectionPrims ⟨0, 1⟩ [⟨0, 0, 0, 1⟩, ⟨1, 0, 0, 1⟩] ⟨0, 0, 0⟩ 0
        (fun _ => 0) 7 (segmentStepOf [⟨0, 0, 0, 1⟩, ⟨1, 0, 0, 1⟩] 5) 1 3 1
        false ⟨0, 0, 0, 1⟩ := by
    norm_num [sectionPrims, spherePrims, connectorPrims, segmentStepOf,
      sampleRadius, List.getD]
    exact Or.inl (by simp)
  exact ⟨h.1, h.2 3 1 false ⟨0, 0, 0, 1⟩ _ hmem, hmem⟩

/-! ### Theorems for the loader boundary -/

/-- C4 counterexample: `importCircuit` constructs the `BlueConfig`
outside any try/catch, so on a malformed circuit configuration file the
exception propagates out of the loader — the function does not return
the boolean `false` the claim demands. -/
theorem importCircuit_malformed_config_counterexample :
    importCircuitEntry ⟨Except.error "malformed circuit configuration",
        false⟩ ≠ Except.ok false ∧
    importCircuitEntry ⟨Except.error "malformed circuit configuration",
        false⟩ = Except.error "malformed circuit configuration" := by
  refine ⟨?_, rfl⟩
  intro h
  simp [importCircuitEntry] at h

/-- C4 amended: the loader entry points report failure as a boolean
after logging for the cases the code actually converts: every non-Brion
stub returns false; `importMorphology` returns false when reading the
morphology raises a runtime error (caught inside `_importMorphology`);
`importCircuit` and `importSimulationData` return false when the
circuit's GID set is empty.  A malformed circuit configuration is not
converted: the `BlueConfig` exception propagates out of
`importCircuit`. -/
theorem loaders_boolean_failure_amended :
    importMorphologyNoBrion = false ∧
    importCircuitNoBrion = false ∧
    importCircuitReportNoBrion = false ∧
    importSimulationDataNoBrion = false ∧
    (∀ (useMetaballs : Bool) (meshImport : Except String Unit)
        (e : String),
      importMorphologyEntry useMetaballs meshImport (Except.error e) =
        Except.ok false) ∧
    (∀ env : CircuitImportEnv, env.blueConfig = Except.ok () →
      env.gidsEmpty = true → importCircuitEntry env = Except.ok false) ∧
    (∀ (env : CircuitImportEnv) (e : String),
      env.blueConfig = Except.error e →
      importCircuitEntry env = Except.error e) ∧
    (∀ env : SimDataEnv, env.gidsEmpty = true →
      importSimulationData env = (false, none)) := by
  refine ⟨rfl, rfl, rfl, rfl, ?_, ?_, ?_, ?_⟩
  · intro useMetaballs meshImport e
    simp [importMorphologyEntry, catchRuntimeError]
  · intro env h1 h2
    simp [importCircuitEntry, h1, h2]
  · intro env e h
    simp [importCircuitEntry, h]
  · intro env h
    simp [importSimulationData, h]

/-- Witness for the amended C4 at concrete inputs: a morphology read
error, an empty GID set for both `importCircuit` and
`importSimulationData`, and a propagated configuration exception. -/
theorem loaders_boolean_failure_amended_witness :
    importMorphologyEntry true (Except.ok ())
        (Except.error "bad morphology") = Except.ok false ∧
    importCircuitEntry ⟨Except.ok (), true⟩ = Except.ok false ∧
    importCircuitEntry ⟨Except.error "oops", false⟩ =
      Except.error "oops" ∧
    importSimulationData ⟨true, ⟨0, 0, 1, 0, fun _ => []⟩, ⟨0, 0⟩, false,
        true⟩ = (false, none) := by
  have h := loaders_boolean_failure_amended
  exact ⟨h.2.2.2.2.1 true (Except.ok ()) "bad morphology",
    h.2.2.2.2.2.1 ⟨Except.ok (), true⟩ rfl rfl,
    h.2.2.2.2.2.2.1 ⟨Except.error "oops", false⟩ "oops" rfl,
    h.2.2.2.2.2.2.2 ⟨true, ⟨0, 0, 1, 0, fun _ => []⟩, ⟨0, 0⟩, false, true⟩
      rfl⟩

/-! ### Theorems for the parallel scatter/gather of `importCircuit` -/

theorem threadAccum_foldl {P : Type} (gen : Nat → Nat → List P) (nsk : Nat) :
    ∀ (idxs : List Nat) (acc : Nat → List P) (material : Nat),
      idxs.foldl
          (fun acc i => fun m => acc m ++ processCell gen nsk i m) acc
          material =
        acc material ++ idxs.flatMap (fun i => processCell gen nsk i material) := by
  intro idxs
  induction idxs with
  | nil => intro acc material; simp
  | cons i idxs ih =>
    intro acc material
    simp only [List.foldl_cons, List.flatMap_cons]
    rw [ih]
    simp [List.append_assoc]

theorem threadAccum_apply {P : Type} (gen : Nat → Nat → List P) (nsk : Nat)
    (idxs : List Nat) (material : Nat) :
    threadAccum gen nsk idxs material =
      idxs.flatMap (fun i => processCell gen nsk i material) := by
  rw [threadAccum, threadAccum_foldl]
  simp

theorem parallelGather_apply {P : Type} (gen : Nat → Nat → List P)
    (nsk : Nat) :
    ∀ (threads : List (List Nat)) (scene0 : Nat → List P) (material : Nat),
      parallelGather gen nsk scene0 threads material =
        scene0 material ++
          threads.flatMap (fun th => threadAccum gen nsk th material) := by
  intro threads
  induction threads with
  | nil => intro scene0 material; simp [parallelGather]
  | cons th threads ih =>
    intro scene0 material
    show parallelGather gen nsk
      (mergeScene scene0 (threadAccum gen nsk th)) threads material = _
    rw [ih]
    simp [mergeScene, List.flatMap_cons, List.append_assoc]

theorem mem_parallelGather {P : Type} (gen : Nat → Nat → List P)
    (nsk : Nat) (scene0 : Nat → List P) (threads : List (List Nat))
    (i : Nat) (hmem : i ∈ threads.flatten) (hskip : cellSkipped nsk i = false)
    (material : Nat) (p : P) (hp : p ∈ gen i material) :
    p ∈ parallelGather gen nsk scene0 threads material := by
  rw [parallelGather_apply]
  apply List.mem_append_right
  rcases List.mem_flatten.mp hmem with ⟨th, hth, hith⟩
  apply List.mem_flatMap.mpr
  refine ⟨th, hth, ?_⟩
  rw [threadAccum_apply]
  apply List.mem_flatMap.mpr
  refine ⟨i, hith, ?_⟩
  simpa [processCell, hskip] using hp

theorem Boxq.subsumes_refl (a : Boxq) : a.subsumes a = true := by
  cases a <;> simp [Boxq.subsumes]

theorem Boxq.merge_subsumes_left (a b : Boxq) :
    (Boxq.merge a b).subsumes a = true := by
  cases a <;> cases b <;>
    simp [Boxq.merge, Boxq.subsumes, vminQ, vmaxQ, min_le_left, min_le_right,
      le_max_left, le_max_right]

theorem Boxq.merge_subsumes_right (a b : Boxq) :
    (Boxq.merge a b).subsumes b = true := by
  cases a <;> cases b <;>
    simp [Boxq.merge, Boxq.subsumes, vminQ, vmaxQ, min_le_left, min_le_right,
      le_max_left, le_max_right]

theorem Boxq.subsumes_trans {a b c : Boxq} (hab : a.subsumes b = true)
    (hbc : b.subsumes c = true) : a.subsumes c = true := by
  cases a with
  | emptyBox =>
    cases c with
    | emptyBox => rfl
    | box lc hc =>
      cases b with
      | emptyBox => simp [Boxq.subsumes] at hbc
      | box lb hb => simp [Boxq.subsumes] at hab
  | box la ha =>
    cases c with
    | emptyBox => rfl
    | box lc hc =>
      cases b with
      | emptyBox => simp [Boxq.subsumes] at hbc
      | box lb hb =>
        simp only [Boxq.subsumes, Bool.and_eq_true, decide_eq_true_eq]
          at hab hbc ⊢
        obtain ⟨⟨⟨⟨⟨a1, a2⟩, a3⟩, a4⟩, a5⟩, a6⟩ := hab
        obtain ⟨⟨⟨⟨⟨b1, b2⟩, b3⟩, b4⟩, b5⟩, b6⟩ := hbc
        exact ⟨⟨⟨⟨⟨le_trans a1 b1, le_trans a2 b2⟩, le_trans a3 b3⟩,
          le_trans b4 a4⟩, le_trans b5 a5⟩, le_trans b6 a6⟩

theorem foldl_bounds_subsumes (cellBounds : Nat → Boxq) (nsk : Nat) :
    ∀ (idxs : List Nat) (init c : Boxq), init.subsumes c = true →
      (idxs.foldl
          (fun b i => if cellSkipped nsk i then b else b.merge (cellBounds i))
          init).subsumes c = true := by
  intro idxs
  induction idxs with
  | nil => intro init c h; exact h
  | cons i idxs ih =>
    intro init c h
    simp only [List.foldl_cons]
    apply ih
    by_cases hs : cellSkipped nsk i = true
    · simpa [hs] using h
    · have hs2 : cellSkipped nsk i = false := by simpa using hs
      simp only [hs2, Bool.false_eq_true, if_false]
      exact Boxq.subsumes_trans (Boxq.merge_subsumes_left init (cellBounds i)) h

theorem foldl_bounds_mem (cellBounds : Nat → Boxq) (nsk : Nat) :
    ∀ (idxs : List Nat) (init : Boxq) (i : Nat), i ∈ idxs →
      cellSkipped nsk i = false →
      (idxs.foldl
          (fun b j => if cellSkipped nsk j then b else b.merge (cellBounds j))
          init).subsumes (cellBounds i) = true := by
  intro idxs
  induction idxs with
  | nil => intro init i h; exact absurd h (List.not_mem_nil i)
  | cons j idxs ih =>
    intro init i hmem hskip
    rcases List.mem_cons.mp hmem with heq | hmem2
    · subst heq
      simp only [List.foldl_cons, hskip, Bool.false_eq_true, if_false]
      exact foldl_bounds_subsumes cellBounds nsk idxs _ _
        (Boxq.merge_subsumes_right init (cellBounds i))
    · simp only [List.foldl_cons]
      exact ih _ i hmem2 hskip

theorem threadBounds_subsumes (cellBounds : Nat → Boxq) (nsk : Nat)
    (idxs : List Nat) (i : Nat) (hmem : i ∈ idxs)
    (hskip : cellSkipped nsk i = false) :
    (threadBounds cellBounds nsk idxs).subsumes (cellBounds i) = true :=
  foldl_bounds_mem cellBounds nsk idxs Boxq.emptyBox i hmem hskip

theorem foldl_world_subsumes (cellBounds : Nat → Boxq) (nsk : Nat) :
    ∀ (threads : List (List Nat)) (w c : Boxq), w.subsumes c = true →
      (threads.foldl
          (fun w th => w.merge (threadBounds cellBounds nsk th)) w).subsumes
        c = true := by
  intro threads
  induction threads with
  | nil => intro w c h; exact h
  | cons th threads ih =>
    intro w c h
    simp only [List.foldl_cons]
    exact ih _ c (Boxq.subsumes_trans
      (Boxq.merge_subsumes_left w (threadBounds cellBounds nsk th)) h)

theorem finalWorldBounds_subsumes (cellBounds : Nat → Boxq) (nsk : Nat)
    (w0 : Boxq) :
    ∀ (threads : List (List Nat)) (th : List Nat) (i : Nat),
      th ∈ threads → i ∈ th → cellSkipped nsk i = false →
      (finalWorldBounds cellBounds nsk w0 threads).subsumes (cellBounds i) =
        true := by
  intro threads
  induction threads generalizing w0 with
  | nil => intro th i h; exact absurd h (List.not_mem_nil th)
  | cons th2 threads ih =>
    intro th i hth hmem hskip
    rcases List.mem_cons.mp hth with heq | hth2
    · subst heq
      show (threads.foldl _ (w0.merge (threadBounds cellBounds nsk th))).subsumes
        (cellBounds i) = true
      exact foldl_world_subsumes cellBounds nsk threads _ _
        (Boxq.subsumes_trans
          (Boxq.merge_subsumes_right w0 (threadBounds cellBounds nsk th))
          (threadBounds_subsumes cellBounds nsk th i hmem hskip))
    · exact ih (w0.merge (threadBounds cellBounds nsk th2)) th i hth2 hmem hskip

/-- C6: for any assignment of the cell indices to threads (the OpenMP
`for` distributes each index exactly once) and any serialisation of the
critical-section merges, the scene container of every material ends as
the initial scene content followed by every thread-local container's
content, and every primitive generated for a non-skipped cell — and that
cell's bounds contribution — is present in the scene (respectively
contained in the world bounds) when `importCircuit` returns. -/
theorem importCircuit_scatter_gather {P : Type} (gen : Nat → Nat → List P)
    (cellBounds : Nat → Boxq) (nsk n : Nat) (scene0 : Nat → List P)
    (w0 : Boxq) (threads : List (List Nat))
    (hpart : threads.flatten.Perm (List.range n)) :
    (∀ material, parallelGather gen nsk scene0 threads material =
      scene0 material ++
        threads.flatMap (fun th => threadAccum gen nsk th material)) ∧
    (∀ i, i < n → cellSkipped nsk i = false →
      (∀ material p, p ∈ gen i material →
        p ∈ parallelGather gen nsk scene0 threads material) ∧
      (finalWorldBounds cellBounds nsk w0 threads).subsumes (cellBounds i) =
        true) := by
  refine ⟨fun material => parallelGather_apply gen nsk threads scene0
    material, ?_⟩
  intro i hi hskip
  have hmemj : i ∈ threads.flatten :=
    hpart.mem_iff.mpr (List.mem_range.mpr hi)
  obtain ⟨th, hth, hith⟩ := List.mem_flatten.mp hmemj
  exact ⟨fun material p hp =>
    mem_parallelGather gen nsk scene0 threads i hmemj hskip material p hp,
    finalWorldBounds_subsumes cellBounds nsk w0 threads th i hth hith hskip⟩

/-- Witness for C6: two cells split across two threads merged in
reverse order; cell 0's primitive is in the final scene and its bounds
are inside the final world bounds. -/
theorem importCircuit_scatter_gather_witness :
    (0 : Nat) ∈ parallelGather (fun i _ => [i]) 0 (fun _ => ([] : List Nat))
      [[1], [0]] 5 ∧
    (finalWorldBounds (fun _ => Boxq.box ⟨0, 0, 0⟩ ⟨1, 1, 1⟩) 0
        Boxq.emptyBox [[1], [0]]).subsumes (Boxq.box ⟨0, 0, 0⟩ ⟨1, 1, 1⟩) =
      true := by
  have h := importCircuit_scatter_gather (fun i _ => [i])
    (fun _ => Boxq.box ⟨0, 0, 0⟩ ⟨1, 1, 1⟩) 0 2 (fun _ => [])
    Boxq.emptyBox [[1], [0]] (by decide)
  have h2 := h.2 0 (by decide) (by decide)
  exact ⟨h2.1 5 0 (by decide), h2.2⟩

end Brayns
